import Mathlib

/-!
# Verification of the mascot-contest backend integrity logic

Shallow embedding of `src/backend/server.js`: the three in-memory
collections (`users`, `mascots`, `votes`), their on-disk copies written by
`saveData`, and the mutation handlers (register, create mascot, delete
mascot, cast vote, withdraw vote, delete account, admin clears).

JS numbers holding ids and counters are modelled as `Nat` (the code only
ever stores non-negative integers in them, and `Math.max(0, n - 1)`
coincides with truncated `Nat` subtraction).  Filesystem effects
(`fs.existsSync` / `fs.unlinkSync` on a mascot image) are modelled by two
boolean oracles passed to the deletion handlers: whether the image file
exists, and whether `unlinkSync` succeeds (rather than throwing).
-/

namespace MascotContest

/-- A record of the `users` collection (`server.js`): id assigned as
`users.length + 1` at registration, bcrypt-hashed password kept as an
opaque string. -/
structure User where
  id : Nat
  username : String
  email : String
  password : String
  registrationIP : String := ""
  createdAt : String := ""
  deriving Repr, DecidableEq

/-- A record of the `mascots` collection: `votes` is the denormalized
vote counter, `userId` the owning user, `imageUrl` the optional
`/uploads/...` media reference. -/
structure Mascot where
  id : Nat
  name : String
  description : String
  imageUrl : Option String
  votes : Nat
  userId : Nat
  submissionIP : String := ""
  createdAt : String := ""
  deriving Repr, DecidableEq

/-- A record of the `votes` collection: `userId` is the voter,
`mascotId` the target mascot. -/
structure Vote where
  id : Nat
  userId : Nat
  mascotId : Nat
  voteIP : String := ""
  createdAt : String := ""
  deriving Repr, DecidableEq

/-- The three collections, as they live in memory (the module-level
`users`, `mascots`, `votes` arrays) or on disk (the three JSON files). -/
structure Collections where
  users : List User
  mascots : List Mascot
  votes : List Vote
  deriving Repr, DecidableEq

/-- Full system state: in-memory arrays plus the JSON files written by
`saveData`. -/
structure Sys where
  mem : Collections
  disk : Collections
  deriving Repr, DecidableEq

/-- The three collection names accepted by `saveData`. -/
inductive Coll where
  | users | mascots | votes
  deriving Repr, DecidableEq

/-- `saveData(type)`: overwrite one backing file with the current
in-memory contents of that collection. -/
def saveData (c : Coll) (s : Sys) : Sys :=
  match c with
  | .users => { s with disk := { s.disk with users := s.mem.users } }
  | .mascots => { s with disk := { s.disk with mascots := s.mem.mascots } }
  | .votes => { s with disk := { s.disk with votes := s.mem.votes } }

/-- The rejection branches of the handlers, one constructor per distinct
early-return in `server.js` (each carries a distinct message/status
there). -/
inductive ApiError where
  | validationFailed      -- express-validator 400
  | domainNotAllowed      -- 400: registration restricted to @ofiservices.com
  | emailExists           -- 400: duplicate email
  | usernameTaken         -- 400: duplicate username
  | oneMascotPerUser      -- 400: requesting user already owns a mascot
  | mascotNotFound        -- 404
  | selfVote              -- 400: voting for one's own mascot
  | alreadyVoted          -- 400: duplicate (voter, mascot) vote
  | voteNotFound          -- 404
  | notYourMascot         -- 403: deleting someone else's mascot
  | userNotFound          -- 404
  | deleteFailed          -- 500: catch block of DELETE /api/mascots/:id
  | deleteAccountFailed   -- 500: catch block of DELETE /api/user/me
  deriving Repr, DecidableEq

/-- The HTTP status each rejection is sent with in `server.js`. -/
def ApiError.status : ApiError → Nat
  | .validationFailed => 400
  | .domainNotAllowed => 400
  | .emailExists => 400
  | .usernameTaken => 400
  | .oneMascotPerUser => 400
  | .mascotNotFound => 404
  | .selfVote => 400
  | .alreadyVoted => 400
  | .voteNotFound => 404
  | .notYourMascot => 403
  | .userNotFound => 404
  | .deleteFailed => 500
  | .deleteAccountFailed => 500

/-- The spec's error taxonomy (§7). -/
inductive ErrClass where
  | validationError | conflictError | notFoundError
  | unauthorizedError | forbiddenError | storageError
  deriving Repr, DecidableEq

/-- Modelled from the spec: §7 assigns each rejection of the integrity
rules a taxonomy class — ConflictError for "uniqueness/ownership/
one-per-user invariant violated" (duplicate email/username, second
mascot, duplicate vote, self-vote), NotFoundError for "referenced entity
absent", ValidationError for malformed input, ForbiddenError for
"authenticated but not permitted", StorageError for persistence/file
failures surfaced as 500s.  The code itself exposes only HTTP statuses
and message strings; this map is the spec's reading of those branches. -/
def ApiError.toClass : ApiError → ErrClass
  | .validationFailed => .validationError
  | .domainNotAllowed => .validationError
  | .emailExists => .conflictError
  | .usernameTaken => .conflictError
  | .oneMascotPerUser => .conflictError
  | .mascotNotFound => .notFoundError
  | .selfVote => .conflictError
  | .alreadyVoted => .conflictError
  | .voteNotFound => .notFoundError
  | .notYourMascot => .forbiddenError
  | .userNotFound => .notFoundError
  | .deleteFailed => .storageError
  | .deleteAccountFailed => .storageError

/-- `email.toLowerCase().endsWith('@ofiservices.com')` from the
registration handler: a suffix test on the lower-cased characters of the
email (JS `endsWith` is a suffix test; on these ASCII strings
`toLowerCase` is per-character lowering). -/
def emailDomainOk (email : String) : Bool :=
  "@ofiservices.com".data.isSuffixOf (email.data.map Char.toLower)

/-- Input of `POST /api/auth/register`.  `emailFormatOk` is the outcome
of express-validator's `isEmail` check; `hashed` is the bcrypt hash of
`password` produced by the external hashing collaborator. -/
structure RegisterInput where
  username : String
  email : String
  password : String
  hashed : String
  emailFormatOk : Bool
  clientIP : String := ""
  now : String := ""
  deriving Repr, DecidableEq

/-- The user record a successful registration pushes:
`id: users.length + 1`. -/
def regUser (inp : RegisterInput) (s : Sys) : User :=
  { id := s.mem.users.length + 1, username := inp.username, email := inp.email,
    password := inp.hashed, registrationIP := inp.clientIP, createdAt := inp.now }

/-- `POST /api/auth/register`: validate, restrict the email domain,
reject duplicate email then duplicate username, then push a user whose
id is `users.length + 1` and save the users file. -/
def register (inp : RegisterInput) (s : Sys) : Except ApiError Unit × Sys :=
  if ¬ (3 ≤ inp.username.length ∧ inp.emailFormatOk = true ∧ 6 ≤ inp.password.length) then
    (.error .validationFailed, s)
  else if emailDomainOk inp.email = false then
    (.error .domainNotAllowed, s)
  else if (s.mem.users.find? (fun u => u.email == inp.email)).isSome then
    (.error .emailExists, s)
  else if (s.mem.users.find? (fun u => u.username == inp.username)).isSome then
    (.error .usernameTaken, s)
  else
    (.ok (), saveData .users
      { s with mem := { s.mem with users := s.mem.users ++ [regUser inp s] } })

/-- Input of `POST /api/mascots`.  `userId` is `req.user.id` from the
JWT; `file` is the stored upload filename, if an image was sent. -/
structure CreateMascotInput where
  userId : Nat
  name : String
  description : String
  file : Option String
  clientIP : String := ""
  now : String := ""
  deriving Repr, DecidableEq

/-- The mascot record a successful creation pushes: id
`mascots.length + 1`, zeroed vote counter. -/
def newMascotRec (inp : CreateMascotInput) (s : Sys) : Mascot :=
  { id := s.mem.mascots.length + 1, name := inp.name, description := inp.description,
    imageUrl := inp.file.map (fun f => "/uploads/" ++ f), votes := 0,
    userId := inp.userId, submissionIP := inp.clientIP, createdAt := inp.now }

/-- `POST /api/mascots`: validate name/description, reject if the
requesting user already owns a mascot, then push `newMascotRec` and
save the mascots file. -/
def createMascot (inp : CreateMascotInput) (s : Sys) : Except ApiError Unit × Sys :=
  if ¬ (1 ≤ inp.name.length ∧ 1 ≤ inp.description.length) then
    (.error .validationFailed, s)
  else if (s.mem.mascots.find? (fun m => m.userId == inp.userId)).isSome then
    (.error .oneMascotPerUser, s)
  else
    (.ok (), saveData .mascots
      { s with mem := { s.mem with mascots := s.mem.mascots ++ [newMascotRec inp s] } })

/-- `mascots.splice(mascotIndex, 1)` on the first mascot whose id
matches (in memory only). -/
def eraseMascotById (mid : Nat) (s : Sys) : Sys :=
  { s with mem := { s.mem with mascots := s.mem.mascots.eraseP (fun m => m.id == mid) } }

/-- `votes = votes.filter(v => v.mascotId !== mid)` (in memory only). -/
def filterMascotVotes (mid : Nat) (s : Sys) : Sys :=
  { s with mem := { s.mem with votes := s.mem.votes.filter (fun v => v.mascotId != mid) } }

/-- `DELETE /api/mascots/:id`: 404 when no mascot has the id, 403 when
the first mascot with the id is not owned by the requester; otherwise
attempt to unlink the image file (a throwing `unlinkSync` hits the
handler's catch block: 500 and nothing mutated), then splice the first
matching mascot out, save mascots, drop every vote whose `mascotId`
matches, and save votes only when at least one vote was dropped
(`removedVotesCount > 0`, computed on the pre-filter length). -/
def deleteMascot (userId mascotId : Nat) (fileExists unlinkOk : Bool) (s : Sys) :
    Except ApiError Unit × Sys :=
  match s.mem.mascots.find? (fun m => m.id == mascotId) with
  | none => (.error .mascotNotFound, s)
  | some mascot =>
    if mascot.userId ≠ userId then (.error .notYourMascot, s)
    else if mascot.imageUrl.isSome ∧ fileExists = true ∧ unlinkOk = false then
      (.error .deleteFailed, s)
    else if 0 < s.mem.votes.length -
        (s.mem.votes.filter (fun v => v.mascotId != mascotId)).length then
      (.ok (), saveData .votes
        (filterMascotVotes mascotId (saveData .mascots (eraseMascotById mascotId s))))
    else
      (.ok (), filterMascotVotes mascotId (saveData .mascots (eraseMascotById mascotId s)))

/-- Replace the first element satisfying `p` by its image under `f`
(the JS pattern of mutating the object returned by `Array.find` in
place). -/
def updateFirst (p : α → Bool) (f : α → α) : List α → List α
  | [] => []
  | a :: as => if p a then f a :: as else a :: updateFirst p f as

/-- The vote record a successful cast pushes: id `votes.length + 1`. -/
def newVoteRec (userId mascotId : Nat) (clientIP now : String) (s : Sys) : Vote :=
  { id := s.mem.votes.length + 1, userId := userId, mascotId := mascotId,
    voteIP := clientIP, createdAt := now }

/-- `votes.push(...)` (in memory only). -/
def pushVoteMem (v : Vote) (s : Sys) : Sys :=
  { s with mem := { s.mem with votes := s.mem.votes ++ [v] } }

/-- `mascot.votes += 1` on the object returned by `mascots.find` — i.e.
on the first mascot whose id matches. -/
def incMascotVotes (mid : Nat) (s : Sys) : Sys :=
  { s with mem := { s.mem with
      mascots := updateFirst (fun m => m.id == mid)
                   (fun m => { m with votes := m.votes + 1 }) s.mem.mascots } }

/-- `mascot.votes = Math.max(0, mascot.votes - 1)` on the first mascot
whose id matches (truncated `Nat` subtraction is exactly
`Math.max(0, n - 1)` on non-negative integers). -/
def decMascotVotes (mid : Nat) (s : Sys) : Sys :=
  { s with mem := { s.mem with
      mascots := updateFirst (fun m => m.id == mid)
                   (fun m => { m with votes := m.votes - 1 }) s.mem.mascots } }

/-- `POST /api/mascots/:id/vote`: 404 when no mascot has the id, 400
when the first mascot with the id is owned by the voter (self-vote), 400
when a vote with the same (voter, mascot) pair exists; otherwise push
`newVoteRec`, increment the found mascot's counter, and save mascots
then votes. -/
def castVote (userId mascotId : Nat) (clientIP now : String) (s : Sys) :
    Except ApiError Unit × Sys :=
  match s.mem.mascots.find? (fun m => m.id == mascotId) with
  | none => (.error .mascotNotFound, s)
  | some mascot =>
    if mascot.userId = userId then (.error .selfVote, s)
    else if (s.mem.votes.find? (fun v => v.userId == userId && v.mascotId == mascotId)).isSome then
      (.error .alreadyVoted, s)
    else
      (.ok (), saveData .votes (saveData .mascots
        (incMascotVotes mascotId (pushVoteMem (newVoteRec userId mascotId clientIP now s) s))))

/-- `votes.splice(voteIndex, 1)` on the first vote matching the
(voter, mascot) pair (in memory only). -/
def eraseVoteMem (userId mascotId : Nat) (s : Sys) : Sys :=
  { s with mem := { s.mem with
      votes := s.mem.votes.eraseP (fun v => v.userId == userId && v.mascotId == mascotId) } }

/-- `DELETE /api/mascots/:id/vote`: 404 when no mascot has the id, 404
when the requester has no vote on it; otherwise splice out the first
matching vote, save votes, set the found mascot's counter to
`Math.max(0, votes - 1)` and save mascots. -/
def withdrawVote (userId mascotId : Nat) (s : Sys) : Except ApiError Unit × Sys :=
  match s.mem.mascots.find? (fun m => m.id == mascotId) with
  | none => (.error .mascotNotFound, s)
  | some _ =>
    if (s.mem.votes.find? (fun v => v.userId == userId && v.mascotId == mascotId)).isNone then
      (.error .voteNotFound, s)
    else
      (.ok (), saveData .mascots
        (decMascotVotes mascotId (saveData .votes (eraseVoteMem userId mascotId s))))

/-- `votes = votes.filter(v => v.userId !== userId)` (in memory only). -/
def filterUserVotes (userId : Nat) (s : Sys) : Sys :=
  { s with mem := { s.mem with votes := s.mem.votes.filter (fun v => v.userId != userId) } }

/-- `users.splice(userIndex, 1)` on the first user whose id matches
(in memory only). -/
def eraseUserById (userId : Nat) (s : Sys) : Sys :=
  { s with mem := { s.mem with users := s.mem.users.eraseP (fun u => u.id == userId) } }

/-- Tail of `DELETE /api/user/me`: drop every vote cast by the user,
save votes only when that dropped at least one (`removedVotesCount > 0`
— the baseline `initialVotesLength` is taken here, after any votes on
the user's own mascot were already filtered out), then splice the user
out and save users. -/
def finishDeleteAccount (userId : Nat) (s : Sys) : Except ApiError Unit × Sys :=
  if 0 < s.mem.votes.length - (s.mem.votes.filter (fun v => v.userId != userId)).length then
    (.ok (), saveData .users (eraseUserById userId (saveData .votes (filterUserVotes userId s))))
  else
    (.ok (), saveData .users (eraseUserById userId (filterUserVotes userId s)))

/-- `DELETE /api/user/me`: 404 when the user id is absent; if the user
owns a mascot, unlink its image (a throwing `unlinkSync` hits the catch
block: 500, nothing mutated), splice out the first mascot whose id
matches the owned mascot's id, save mascots, and drop votes on that
mascot id (without saving); then `finishDeleteAccount`. -/
def deleteAccount (userId : Nat) (fileExists unlinkOk : Bool) (s : Sys) :
    Except ApiError Unit × Sys :=
  if (s.mem.users.find? (fun u => u.id == userId)).isNone then
    (.error .userNotFound, s)
  else
    match s.mem.mascots.find? (fun m => m.userId == userId) with
    | none => finishDeleteAccount userId s
    | some userMascot =>
      if userMascot.imageUrl.isSome ∧ fileExists = true ∧ unlinkOk = false then
        (.error .deleteAccountFailed, s)
      else
        finishDeleteAccount userId
          (filterMascotVotes userMascot.id (saveData .mascots (eraseMascotById userMascot.id s)))

/-- `DELETE /api/admin/clear/mascots`: clear the mascots array only and
save it (votes are left untouched). -/
def clearMascots (s : Sys) : Except ApiError Unit × Sys :=
  (.ok (), saveData .mascots { s with mem := { s.mem with mascots := [] } })

/-- `DELETE /api/admin/clear/votes`. -/
def clearVotes (s : Sys) : Except ApiError Unit × Sys :=
  (.ok (), saveData .votes { s with mem := { s.mem with votes := [] } })

/-- `DELETE /api/admin/clear/all`. -/
def clearAll (s : Sys) : Except ApiError Unit × Sys :=
  (.ok (), saveData .votes (saveData .mascots
    { s with mem := { s.mem with mascots := [], votes := [] } }))

/-- One inbound mutation request.  Authenticated requests carry the
`req.user.id` decoded from the JWT — the handlers never re-check that
this user still exists, so the id is an arbitrary `Nat` here. -/
inductive Action where
  | register (inp : RegisterInput)
  | createMascot (inp : CreateMascotInput)
  | deleteMascot (userId mascotId : Nat) (fileExists unlinkOk : Bool)
  | castVote (userId mascotId : Nat) (clientIP now : String)
  | withdrawVote (userId mascotId : Nat)
  | deleteAccount (userId : Nat) (fileExists unlinkOk : Bool)
  | clearMascots | clearVotes | clearAll
  deriving Repr, DecidableEq

/-- Dispatch one request. -/
def step (a : Action) (s : Sys) : Except ApiError Unit × Sys :=
  match a with
  | .register inp => register inp s
  | .createMascot inp => createMascot inp s
  | .deleteMascot uid mid fe uo => deleteMascot uid mid fe uo s
  | .castVote uid mid ip now => castVote uid mid ip now s
  | .withdrawVote uid mid => withdrawVote uid mid s
  | .deleteAccount uid fe uo => deleteAccount uid fe uo s
  | .clearMascots => clearMascots s
  | .clearVotes => clearVotes s
  | .clearAll => clearAll s

/-- Run a sequence of requests, ignoring responses. -/
def run : List Action → Sys → Sys
  | [], s => s
  | a :: as, s => run as (step a s).2

/-- The default demo user seeded by `loadData` when no users file
exists. -/
def demoUser : User :=
  { id := 1, username := "demo", email := "demo@example.com",
    password := "$2a$10$92IXUNpkjO0rOQ5byMi.Ye4oKoEa3Ro9llC/.og/at2.uheWG/igi" }

/-- State after startup `loadData()` with no data files present: the
demo user is seeded and immediately saved; mascots and votes start
empty (a missing file means an empty collection). -/
def initState : Sys :=
  { mem := { users := [demoUser], mascots := [], votes := [] },
    disk := { users := [demoUser], mascots := [], votes := [] } }

/-! ## Invariants -/

/-- At most one live vote per (voter, entry) pair. -/
def PairUnique (c : Collections) : Prop :=
  ∀ uid mid : Nat, c.votes.countP (fun v => v.userId == uid && v.mascotId == mid) ≤ 1

/-- At most one live mascot per owning user id. -/
def OneMascotPerUser (c : Collections) : Prop :=
  ∀ uid : Nat, c.mascots.countP (fun m => m.userId == uid) ≤ 1

/-- Every vote references an existing mascot id. -/
def NoOrphanVotes (c : Collections) : Prop :=
  ∀ v ∈ c.votes, ∃ m ∈ c.mascots, m.id = v.mascotId

/-- No vote is a self-vote: the entry a vote targets (the first mascot
whose id matches, as `Array.find` resolves it) is never owned by the
voter. -/
def NoSelfVote (c : Collections) : Prop :=
  ∀ v ∈ c.votes, ∀ m, c.mascots.find? (fun mm => mm.id == v.mascotId) = some m →
    m.userId ≠ v.userId

/-- Every vote references an existing voter user id. -/
def UserRefOK (c : Collections) : Prop :=
  ∀ v ∈ c.votes, ∃ u ∈ c.users, u.id = v.userId

/-- Side condition under which a request keeps votes referentially
intact: it is not the mascots-only admin clear, and a vote cast carries
the id of a user that still exists (i.e. its JWT is not stale). -/
def actionOk (s : Sys) : Action → Bool
  | .clearMascots => false
  | .castVote uid _ _ _ => s.mem.users.any (fun u => u.id == uid)
  | _ => true

/-- `actionOk` holding at every step of a request sequence. -/
def goodRun : List Action → Sys → Bool
  | [], _ => true
  | a :: as, s => actionOk s a && goodRun as (step a s).2

/-! ## Concrete requests and traces -/

/-- Registration of a first regular user (assigned id 2, after the
seeded demo user with id 1). -/
def aliceReg : Action := .register
  { username := "alice", email := "alice@ofiservices.com", password := "secret1",
    hashed := "h1", emailFormatOk := true }

/-- Registration of a second regular user (assigned id 3). -/
def bobReg : Action := .register
  { username := "bobby", email := "bob@ofiservices.com", password := "secret2",
    hashed := "h2", emailFormatOk := true }

/-- A third registration request, used against states with a hole in the
id sequence. -/
def carolInp : RegisterInput :=
  { username := "carol", email := "carol@ofiservices.com", password := "secret3",
    hashed := "h3", emailFormatOk := true }

/-- Alice (id 2) submits mascot "Fox" (gets id 1), no image. -/
def aliceCreate : Action := .createMascot
  { userId := 2, name := "Fox", description := "a fox", file := none }

/-- Alice (id 2) submits mascot "Fox" (gets id 1), with an image. -/
def aliceCreateImg : Action := .createMascot
  { userId := 2, name := "Fox", description := "a fox", file := some "image-1.png" }

/-- Bob (id 3) submits mascot "Wolf". -/
def bobCreate : Action := .createMascot
  { userId := 3, name := "Wolf", description := "a wolf", file := none }

/-- Demo seeded; alice (2) and bob (3) register; alice submits mascot 1;
bob votes for it. -/
def baseTrace : List Action := [aliceReg, bobReg, aliceCreate, .castVote 3 1 "ip" "t"]

/-- `baseTrace`, then the mascots-only admin clear (which leaves bob's
vote on mascot 1 in place), then bob creates a mascot that re-uses
id 1. -/
def c2State : Sys :=
  run [aliceReg, bobReg, aliceCreate, .castVote 3 1 "ip" "t", .clearMascots, bobCreate]
    initState

/-- `baseTrace`, then the mascots-only admin clear: bob's vote on
mascot 1 survives while the mascots collection is emptied. -/
def c4State : Sys :=
  run [aliceReg, bobReg, aliceCreate, .castVote 3 1 "ip" "t", .clearMascots] initState

/-- Alice registered and owning mascot 1 with an image file. -/
def c7State : Sys := run [aliceReg, aliceCreateImg] initState

/-- `baseTrace`, then alice (who cast no votes, but whose mascot 1 was
voted for by bob) deletes her account. -/
def c8State : Sys :=
  run [aliceReg, bobReg, aliceCreate, .castVote 3 1 "ip" "t", .deleteAccount 2 false false]
    initState

/-- Alice registers (id 2), then the demo user (id 1) deletes their
account, leaving `[alice (id 2)]` as the users collection. -/
def c9State : Sys := run [aliceReg, .deleteAccount 1 false false] initState

@[simp] theorem saveData_mem (c : Coll) (s : Sys) : (saveData c s).mem = s.mem := by
  cases c <;> rfl

/-! ## List helper lemmas -/

theorem mem_eraseP_of_not {p : α → Bool} {l : List α} {a : α}
    (ha : a ∈ l) (hpa : p a = false) : a ∈ l.eraseP p := by
  induction l with
  | nil => cases ha
  | cons b l ih =>
    rcases List.mem_cons.1 ha with rfl | hb
    · rw [List.eraseP_cons, hpa]
      exact List.mem_cons_self _ _
    · rw [List.eraseP_cons]
      cases hpb : p b with
      | true => simpa using hb
      | false => exact List.mem_cons_of_mem _ (ih hb)

theorem find?_eraseP_of_imp {p q : α → Bool} (hpq : ∀ x, q x = true → p x = false) :
    ∀ l : List α, (l.eraseP q).find? p = l.find? p := by
  intro l
  induction l with
  | nil => rfl
  | cons a l ih =>
    rw [List.eraseP_cons]
    cases hqa : q a with
    | true =>
      simp only [cond_true]
      rw [List.find?_cons_of_neg _ (by simp [hpq a hqa])]
    | false =>
      simp only [cond_false]
      cases hpa : p a with
      | true =>
        rw [List.find?_cons_of_pos _ hpa, List.find?_cons_of_pos _ hpa]
      | false =>
        rw [List.find?_cons_of_neg _ (by simp [hpa]),
          List.find?_cons_of_neg _ (by simp [hpa]), ih]

theorem find?_append_some {p : α → Bool} {l₁ l₂ : List α} {a : α}
    (h : l₁.find? p = some a) : (l₁ ++ l₂).find? p = some a := by
  rw [List.find?_append, h, Option.or_some]

theorem eraseP_countP_zero {p : α → Bool} {l : List α}
    (h : l.countP p ≤ 1) : (l.eraseP p).countP p = 0 := by
  induction l with
  | nil => rfl
  | cons a l ih =>
    cases hpa : p a with
    | true =>
      rw [List.countP_cons, hpa, if_pos rfl] at h
      rw [List.eraseP_cons, hpa, cond_true]
      omega
    | false =>
      rw [List.countP_cons, hpa, if_neg (by simp)] at h
      rw [List.eraseP_cons, hpa, cond_false, List.countP_cons, hpa, if_neg (by simp)]
      simpa using ih (by omega)

/-! ## `updateFirst` helper lemmas -/

theorem countP_updateFirst {q p : α → Bool} {f : α → α}
    (hp : ∀ a, p (f a) = p a) :
    ∀ l : List α, (updateFirst q f l).countP p = l.countP p := by
  intro l
  induction l with
  | nil => rfl
  | cons a l ih =>
    cases hqa : q a with
    | true => simp [updateFirst, hqa, List.countP_cons, hp]
    | false => simp [updateFirst, hqa, List.countP_cons, ih]

theorem mem_updateFirst_of_mem {q : α → Bool} {f : α → α} {l : List α} {a : α}
    (ha : a ∈ l) : a ∈ updateFirst q f l ∨ f a ∈ updateFirst q f l := by
  induction l with
  | nil => cases ha
  | cons b l ih =>
    rcases List.mem_cons.1 ha with rfl | hb
    · cases hqa : q a with
      | true => simp [updateFirst, hqa]
      | false => simp [updateFirst, hqa]
    · cases hqb : q b with
      | true => simp [updateFirst, hqb, hb]
      | false =>
        rcases ih hb with h | h
        · exact Or.inl (by simp [updateFirst, hqb, List.mem_cons_of_mem _ h])
        · exact Or.inr (by simp [updateFirst, hqb, List.mem_cons_of_mem _ h])

theorem find?_updateFirst_back {q p : α → Bool} {f : α → α}
    (hp : ∀ a, p (f a) = p a) :
    ∀ {l : List α} {b : α}, (updateFirst q f l).find? p = some b →
      ∃ a, l.find? p = some a ∧ (b = a ∨ b = f a) := by
  intro l
  induction l with
  | nil => intro b h; cases h
  | cons a l ih =>
    intro b h
    cases hqa : q a with
    | true =>
      rw [updateFirst, hqa, if_pos rfl] at h
      cases hpa : p a with
      | true =>
        rw [List.find?_cons_of_pos _ (by rw [hp]; exact hpa)] at h
        injection h with h
        exact ⟨a, List.find?_cons_of_pos _ hpa, Or.inr h.symm⟩
      | false =>
        rw [List.find?_cons_of_neg _ (by rw [hp]; simp [hpa])] at h
        exact ⟨b, by rw [List.find?_cons_of_neg _ (by simp [hpa]), h], Or.inl rfl⟩
    | false =>
      rw [updateFirst, hqa] at h
      simp only [Bool.false_eq_true, if_false] at h
      cases hpa : p a with
      | true =>
        rw [List.find?_cons_of_pos _ hpa] at h
        injection h with h
        exact ⟨a, List.find?_cons_of_pos _ hpa, Or.inl h.symm⟩
      | false =>
        rw [List.find?_cons_of_neg _ (by simp [hpa])] at h
        obtain ⟨x, hx, hbx⟩ := ih h
        exact ⟨x, by rw [List.find?_cons_of_neg _ (by simp [hpa])]; exact hx, hbx⟩

theorem find?_updateFirst_self {p : α → Bool} {f : α → α}
    (hp : ∀ a, p (f a) = p a) :
    ∀ {l : List α} {a : α}, l.find? p = some a →
      (updateFirst p f l).find? p = some (f a) := by
  intro l
  induction l with
  | nil => intro a h; cases h
  | cons b l ih =>
    intro a h
    cases hpb : p b with
    | true =>
      rw [List.find?_cons_of_pos _ hpb] at h
      injection h with h
      subst h
      rw [updateFirst, hpb, if_pos rfl, List.find?_cons_of_pos _ (by rw [hp]; exact hpb)]
    | false =>
      rw [List.find?_cons_of_neg _ (by simp [hpb])] at h
      rw [updateFirst, hpb]
      simp only [Bool.false_eq_true, if_false]
      rw [List.find?_cons_of_neg _ (by simp [hpb])]
      exact ih h

/-! ## Outcome characterization of each handler -/

theorem register_error (inp : RegisterInput) (s : Sys) (e : ApiError) :
    (register inp s).1 = .error e → (register inp s).2 = s := by
  unfold register
  repeat' split
  all_goals intro h
  all_goals first | rfl | simp at h

theorem register_ok (inp : RegisterInput) (s : Sys) :
    (register inp s).1 = .ok () →
    (register inp s).2.mem = { s.mem with users := s.mem.users ++ [regUser inp s] } := by
  unfold register
  repeat' split
  all_goals intro h
  all_goals first | rfl | simp at h

theorem createMascot_error (inp : CreateMascotInput) (s : Sys) (e : ApiError) :
    (createMascot inp s).1 = .error e → (createMascot inp s).2 = s := by
  unfold createMascot
  repeat' split
  all_goals intro h
  all_goals first | rfl | simp at h

theorem createMascot_ok (inp : CreateMascotInput) (s : Sys) :
    (createMascot inp s).1 = .ok () →
    (s.mem.mascots.find? (fun m => m.userId == inp.userId)) = none ∧
    (createMascot inp s).2.mem =
      { s.mem with mascots := s.mem.mascots ++ [newMascotRec inp s] } := by
  unfold createMascot
  repeat' split
  all_goals intro h
  any_goals simp at h
  rename_i hfind
  exact ⟨Option.not_isSome_iff_eq_none.1 hfind, rfl⟩

theorem castVote_error (uid mid : Nat) (ip now : String) (s : Sys) (e : ApiError) :
    (castVote uid mid ip now s).1 = .error e → (castVote uid mid ip now s).2 = s := by
  unfold castVote
  repeat' split
  all_goals intro h
  all_goals first | rfl | simp at h

theorem castVote_ok (uid mid : Nat) (ip now : String) (s : Sys) :
    (castVote uid mid ip now s).1 = .ok () →
    ∃ m, s.mem.mascots.find? (fun mm => mm.id == mid) = some m ∧ m.userId ≠ uid ∧
      s.mem.votes.find? (fun v => v.userId == uid && v.mascotId == mid) = none ∧
      (castVote uid mid ip now s).2.mem =
        { s.mem with
            votes := s.mem.votes ++ [newVoteRec uid mid ip now s],
            mascots := updateFirst (fun mm => mm.id == mid)
              (fun mm => { mm with votes := mm.votes + 1 }) s.mem.mascots } := by
  unfold castVote
  repeat' split
  all_goals intro h
  any_goals simp at h
  rename_i m hfind hself hdup
  exact ⟨m, hfind, hself, Option.not_isSome_iff_eq_none.1 hdup,
    by simp [saveData, incMascotVotes, pushVoteMem]⟩

theorem withdrawVote_error (uid mid : Nat) (s : Sys) (e : ApiError) :
    (withdrawVote uid mid s).1 = .error e → (withdrawVote uid mid s).2 = s := by
  unfold withdrawVote
  repeat' split
  all_goals intro h
  all_goals first | rfl | simp at h

theorem withdrawVote_ok (uid mid : Nat) (s : Sys) :
    (withdrawVote uid mid s).1 = .ok () →
    (s.mem.mascots.find? (fun mm => mm.id == mid)).isSome = true ∧
    (s.mem.votes.find? (fun v => v.userId == uid && v.mascotId == mid)).isSome = true ∧
    (withdrawVote uid mid s).2.mem =
      { s.mem with
          votes := s.mem.votes.eraseP (fun v => v.userId == uid && v.mascotId == mid),
          mascots := updateFirst (fun mm => mm.id == mid)
            (fun mm => { mm with votes := mm.votes - 1 }) s.mem.mascots } := by
  unfold withdrawVote
  repeat' split
  all_goals intro h
  any_goals simp at h
  rename_i m hfind hdup
  refine ⟨by rw [hfind]; rfl, ?_, by simp [saveData, decMascotVotes, eraseVoteMem]⟩
  rw [Option.isNone_iff_eq_none] at hdup
  cases hh : s.mem.votes.find? (fun v => v.userId == uid && v.mascotId == mid) with
  | none => exact absurd hh hdup
  | some v => rfl

theorem deleteMascot_error (uid mid : Nat) (fe uo : Bool) (s : Sys) (e : ApiError) :
    (deleteMascot uid mid fe uo s).1 = .error e → (deleteMascot uid mid fe uo s).2 = s := by
  unfold deleteMascot
  repeat' split
  all_goals intro h
  all_goals first | rfl | simp at h

theorem deleteMascot_ok (uid mid : Nat) (fe uo : Bool) (s : Sys) :
    (deleteMascot uid mid fe uo s).1 = .ok () →
    ∃ m, s.mem.mascots.find? (fun mm => mm.id == mid) = some m ∧ m.userId = uid ∧
      (deleteMascot uid mid fe uo s).2.mem =
        { s.mem with
            mascots := s.mem.mascots.eraseP (fun mm => mm.id == mid),
            votes := s.mem.votes.filter (fun v => v.mascotId != mid) } := by
  unfold deleteMascot
  repeat' split
  all_goals intro h
  any_goals simp at h
  · rename_i m hfind hown _ _
    exact ⟨m, hfind, by omega, by simp [saveData, filterMascotVotes, eraseMascotById]⟩
  · rename_i m hfind hown _ _
    exact ⟨m, hfind, by omega, by simp [saveData, filterMascotVotes, eraseMascotById]⟩

theorem finishDeleteAccount_ok (uid : Nat) (s : Sys) :
    (finishDeleteAccount uid s).1 = .ok () ∧
    (finishDeleteAccount uid s).2.mem =
      { s.mem with
          users := s.mem.users.eraseP (fun u => u.id == uid),
          votes := s.mem.votes.filter (fun v => v.userId != uid) } := by
  unfold finishDeleteAccount
  split
  · exact ⟨rfl, by simp [saveData, eraseUserById, filterUserVotes]⟩
  · exact ⟨rfl, by simp [saveData, eraseUserById, filterUserVotes]⟩

theorem deleteAccount_error (uid : Nat) (fe uo : Bool) (s : Sys) (e : ApiError) :
    (deleteAccount uid fe uo s).1 = .error e → (deleteAccount uid fe uo s).2 = s := by
  unfold deleteAccount
  repeat' split
  all_goals intro h
  any_goals rfl
  · have := (finishDeleteAccount_ok uid s).1
    rw [h] at this
    simp at this
  · rename_i umascot _ _
    have := (finishDeleteAccount_ok uid
      (filterMascotVotes umascot.id (saveData .mascots (eraseMascotById umascot.id s)))).1
    rw [h] at this
    simp at this

theorem deleteAccount_ok (uid : Nat) (fe uo : Bool) (s : Sys) :
    (deleteAccount uid fe uo s).1 = .ok () →
    (deleteAccount uid fe uo s).2.mem =
      { s.mem with
          users := s.mem.users.eraseP (fun u => u.id == uid),
          votes := s.mem.votes.filter (fun v => v.userId != uid) } ∨
    ∃ um, s.mem.mascots.find? (fun m => m.userId == uid) = some um ∧
      (deleteAccount uid fe uo s).2.mem =
        { s.mem with
            users := s.mem.users.eraseP (fun u => u.id == uid),
            mascots := s.mem.mascots.eraseP (fun m => m.id == um.id),
            votes := (s.mem.votes.filter (fun v => v.mascotId != um.id)).filter
              (fun v => v.userId != uid) } := by
  unfold deleteAccount
  repeat' split
  all_goals intro h
  any_goals simp at h
  · exact Or.inl (finishDeleteAccount_ok uid s).2
  · rename_i umascot hfind _
    refine Or.inr ⟨umascot, hfind, ?_⟩
    rw [(finishDeleteAccount_ok uid _).2]
    simp [saveData, filterMascotVotes, eraseMascotById]

theorem clearMascots_state (s : Sys) :
    (clearMascots s).2.mem = { s.mem with mascots := [] } := by
  simp [clearMascots, saveData]

theorem clearVotes_state (s : Sys) :
    (clearVotes s).2.mem = { s.mem with votes := [] } := by
  simp [clearVotes, saveData]

theorem clearAll_state (s : Sys) :
    (clearAll s).2.mem = { s.mem with mascots := [], votes := [] } := by
  simp [clearAll, saveData]

/-! ## Preservation of `PairUnique` -/

theorem pairUnique_votes_eq {c c' : Collections} (hv : c'.votes = c.votes)
    (h : PairUnique c) : PairUnique c' := by
  intro uid mid
  rw [hv]
  exact h uid mid

theorem pairUnique_votes_sublist {c c' : Collections} (hv : List.Sublist c'.votes c.votes)
    (h : PairUnique c) : PairUnique c' := by
  intro uid mid
  exact le_trans (hv.countP_le _) (h uid mid)

theorem pairUnique_votes_append {c c' : Collections} {v : Vote}
    (hnew : c.votes.find? (fun w => w.userId == v.userId && w.mascotId == v.mascotId) = none)
    (hv : c'.votes = c.votes ++ [v]) (h : PairUnique c) : PairUnique c' := by
  intro uid mid
  rw [hv, List.countP_append]
  cases hpv : (v.userId == uid && v.mascotId == mid) with
  | false =>
    have h1 : List.countP (fun w => w.userId == uid && w.mascotId == mid) [v] = 0 := by
      simp [List.countP_cons, hpv]
    rw [h1]
    simpa using h uid mid
  | true =>
    have huid : v.userId = uid ∧ v.mascotId = mid := by
      have := Bool.and_elim_left hpv
      have h2 := Bool.and_elim_right hpv
      exact ⟨by simpa using this, by simpa using h2⟩
    obtain ⟨h1, h2⟩ := huid
    subst h1; subst h2
    have hz : List.countP (fun w => w.userId == v.userId && w.mascotId == v.mascotId)
        c.votes = 0 := by
      rw [List.countP_eq_zero]
      intro w hw
      exact fun hp => (List.find?_eq_none.1 hnew w hw) hp
    rw [hz]
    simp [List.countP_cons]

theorem step_pairUnique (a : Action) (s : Sys) (h : PairUnique s.mem) :
    PairUnique (step a s).2.mem := by
  cases a with
  | register inp =>
    show PairUnique (register inp s).2.mem
    rcases hr : (register inp s).1 with e | u
    · rw [register_error inp s e hr]; exact h
    · cases u
      exact pairUnique_votes_eq (by rw [register_ok inp s hr]) h
  | createMascot inp =>
    show PairUnique (createMascot inp s).2.mem
    rcases hr : (createMascot inp s).1 with e | u
    · rw [createMascot_error inp s e hr]; exact h
    · cases u
      exact pairUnique_votes_eq (by rw [(createMascot_ok inp s hr).2]) h
  | deleteMascot uid mid fe uo =>
    show PairUnique (deleteMascot uid mid fe uo s).2.mem
    rcases hr : (deleteMascot uid mid fe uo s).1 with e | u
    · rw [deleteMascot_error uid mid fe uo s e hr]; exact h
    · cases u
      obtain ⟨m, -, -, hmem⟩ := deleteMascot_ok uid mid fe uo s hr
      exact pairUnique_votes_sublist (by rw [hmem]; exact List.filter_sublist _) h
  | castVote uid mid ip now =>
    show PairUnique (castVote uid mid ip now s).2.mem
    rcases hr : (castVote uid mid ip now s).1 with e | u
    · rw [castVote_error uid mid ip now s e hr]; exact h
    · cases u
      obtain ⟨m, -, -, hnew, hmem⟩ := castVote_ok uid mid ip now s hr
      exact pairUnique_votes_append (v := newVoteRec uid mid ip now s)
        (by simpa [newVoteRec] using hnew) (by rw [hmem]) h
  | withdrawVote uid mid =>
    show PairUnique (withdrawVote uid mid s).2.mem
    rcases hr : (withdrawVote uid mid s).1 with e | u
    · rw [withdrawVote_error uid mid s e hr]; exact h
    · cases u
      obtain ⟨-, -, hmem⟩ := withdrawVote_ok uid mid s hr
      exact pairUnique_votes_sublist (by rw [hmem]; exact List.eraseP_sublist _) h
  | deleteAccount uid fe uo =>
    show PairUnique (deleteAccount uid fe uo s).2.mem
    rcases hr : (deleteAccount uid fe uo s).1 with e | u
    · rw [deleteAccount_error uid fe uo s e hr]; exact h
    · cases u
      rcases deleteAccount_ok uid fe uo s hr with hmem | ⟨um, -, hmem⟩
      · exact pairUnique_votes_sublist (by rw [hmem]; exact List.filter_sublist _) h
      · exact pairUnique_votes_sublist
          (by rw [hmem]
              exact List.Sublist.trans (List.filter_sublist _) (List.filter_sublist _)) h
  | clearMascots =>
    show PairUnique (clearMascots s).2.mem
    exact pairUnique_votes_eq (by rw [clearMascots_state]) h
  | clearVotes =>
    show PairUnique (clearVotes s).2.mem
    exact pairUnique_votes_sublist (by rw [clearVotes_state]; exact List.nil_sublist _) h
  | clearAll =>
    show PairUnique (clearAll s).2.mem
    exact pairUnique_votes_sublist (by rw [clearAll_state]; exact List.nil_sublist _) h

/-! ## Preservation of `OneMascotPerUser` -/

theorem oneMascot_mascots_eq {c c' : Collections} (hm : c'.mascots = c.mascots)
    (h : OneMascotPerUser c) : OneMascotPerUser c' := by
  intro uid
  rw [hm]
  exact h uid

theorem oneMascot_mascots_sublist {c c' : Collections} (hm : List.Sublist c'.mascots c.mascots)
    (h : OneMascotPerUser c) : OneMascotPerUser c' := by
  intro uid
  exact le_trans (hm.countP_le _) (h uid)

theorem oneMascot_mascots_append {c c' : Collections} {m : Mascot}
    (hnew : c.mascots.find? (fun mm => mm.userId == m.userId) = none)
    (hm : c'.mascots = c.mascots ++ [m]) (h : OneMascotPerUser c) : OneMascotPerUser c' := by
  intro uid
  rw [hm, List.countP_append]
  cases hpm : (m.userId == uid) with
  | false =>
    have h1 : List.countP (fun mm => mm.userId == uid) [m] = 0 := by
      simp [List.countP_cons, hpm]
    rw [h1]
    simpa using h uid
  | true =>
    have h1 : m.userId = uid := by simpa using hpm
    subst h1
    have hz : List.countP (fun mm => mm.userId == m.userId) c.mascots = 0 := by
      rw [List.countP_eq_zero]
      intro w hw
      exact fun hp => (List.find?_eq_none.1 hnew w hw) hp
    rw [hz]
    simp [List.countP_cons]

theorem step_oneMascot (a : Action) (s : Sys) (h : OneMascotPerUser s.mem) :
    OneMascotPerUser (step a s).2.mem := by
  cases a with
  | register inp =>
    show OneMascotPerUser (register inp s).2.mem
    rcases hr : (register inp s).1 with e | u
    · rw [register_error inp s e hr]; exact h
    · cases u
      exact oneMascot_mascots_eq (by rw [register_ok inp s hr]) h
  | createMascot inp =>
    show OneMascotPerUser (createMascot inp s).2.mem
    rcases hr : (createMascot inp s).1 with e | u
    · rw [createMascot_error inp s e hr]; exact h
    · cases u
      obtain ⟨hfind, hmem⟩ := createMascot_ok inp s hr
      exact oneMascot_mascots_append (m := newMascotRec inp s)
        (by simpa [newMascotRec] using hfind) (by rw [hmem]) h
  | deleteMascot uid mid fe uo =>
    show OneMascotPerUser (deleteMascot uid mid fe uo s).2.mem
    rcases hr : (deleteMascot uid mid fe uo s).1 with e | u
    · rw [deleteMascot_error uid mid fe uo s e hr]; exact h
    · cases u
      obtain ⟨m, -, -, hmem⟩ := deleteMascot_ok uid mid fe uo s hr
      exact oneMascot_mascots_sublist (by rw [hmem]; exact List.eraseP_sublist _) h
  | castVote uid mid ip now =>
    show OneMascotPerUser (castVote uid mid ip now s).2.mem
    rcases hr : (castVote uid mid ip now s).1 with e | u
    · rw [castVote_error uid mid ip now s e hr]; exact h
    · cases u
      obtain ⟨m, -, -, -, hmem⟩ := castVote_ok uid mid ip now s hr
      intro uid'
      rw [hmem]
      show (updateFirst _ _ s.mem.mascots).countP _ ≤ 1
      rw [countP_updateFirst (by intro mm; rfl)]
      exact h uid'
  | withdrawVote uid mid =>
    show OneMascotPerUser (withdrawVote uid mid s).2.mem
    rcases hr : (withdrawVote uid mid s).1 with e | u
    · rw [withdrawVote_error uid mid s e hr]; exact h
    · cases u
      obtain ⟨-, -, hmem⟩ := withdrawVote_ok uid mid s hr
      intro uid'
      rw [hmem]
      show (updateFirst _ _ s.mem.mascots).countP _ ≤ 1
      rw [countP_updateFirst (by intro mm; rfl)]
      exact h uid'
  | deleteAccount uid fe uo =>
    show OneMascotPerUser (deleteAccount uid fe uo s).2.mem
    rcases hr : (deleteAccount uid fe uo s).1 with e | u
    · rw [deleteAccount_error uid fe uo s e hr]; exact h
    · cases u
      rcases deleteAccount_ok uid fe uo s hr with hmem | ⟨um, -, hmem⟩
      · exact oneMascot_mascots_eq (by rw [hmem]) h
      · exact oneMascot_mascots_sublist (by rw [hmem]; exact List.eraseP_sublist _) h
  | clearMascots =>
    show OneMascotPerUser (clearMascots s).2.mem
    exact oneMascot_mascots_sublist (by rw [clearMascots_state]; exact List.nil_sublist _) h
  | clearVotes =>
    show OneMascotPerUser (clearVotes s).2.mem
    exact oneMascot_mascots_eq (by rw [clearVotes_state]) h
  | clearAll =>
    show OneMascotPerUser (clearAll s).2.mem
    exact oneMascot_mascots_sublist (by rw [clearAll_state]; exact List.nil_sublist _) h

/-! ## Preservation of `NoOrphanVotes` (away from the mascots-only clear) -/

theorem noOrphan_eq {c c' : Collections} (hv : c'.votes = c.votes)
    (hm : c'.mascots = c.mascots) (h : NoOrphanVotes c) : NoOrphanVotes c' := by
  intro v hvmem
  rw [hm]
  exact h v (hv ▸ hvmem)

theorem step_noOrphan (a : Action) (s : Sys) (hne : a ≠ Action.clearMascots)
    (h : NoOrphanVotes s.mem) : NoOrphanVotes (step a s).2.mem := by
  cases a with
  | register inp =>
    show NoOrphanVotes (register inp s).2.mem
    rcases hr : (register inp s).1 with e | u
    · rw [register_error inp s e hr]; exact h
    · cases u
      exact noOrphan_eq (by rw [register_ok inp s hr]) (by rw [register_ok inp s hr]) h
  | createMascot inp =>
    show NoOrphanVotes (createMascot inp s).2.mem
    rcases hr : (createMascot inp s).1 with e | u
    · rw [createMascot_error inp s e hr]; exact h
    · cases u
      rw [(createMascot_ok inp s hr).2]
      intro v hvmem
      obtain ⟨m, hm, hid⟩ := h v hvmem
      exact ⟨m, List.mem_append_left _ hm, hid⟩
  | deleteMascot uid mid fe uo =>
    show NoOrphanVotes (deleteMascot uid mid fe uo s).2.mem
    rcases hr : (deleteMascot uid mid fe uo s).1 with e | u
    · rw [deleteMascot_error uid mid fe uo s e hr]; exact h
    · cases u
      obtain ⟨m0, -, -, hmem⟩ := deleteMascot_ok uid mid fe uo s hr
      rw [hmem]
      intro v hvmem
      rw [List.mem_filter] at hvmem
      obtain ⟨hvmem, hvne⟩ := hvmem
      obtain ⟨m, hm, hid⟩ := h v hvmem
      refine ⟨m, mem_eraseP_of_not hm ?_, hid⟩
      have : v.mascotId ≠ mid := by simpa using hvne
      simp [hid, this]
  | castVote uid mid ip now =>
    show NoOrphanVotes (castVote uid mid ip now s).2.mem
    rcases hr : (castVote uid mid ip now s).1 with e | u
    · rw [castVote_error uid mid ip now s e hr]; exact h
    · cases u
      obtain ⟨m0, hfind, -, -, hmem⟩ := castVote_ok uid mid ip now s hr
      rw [hmem]
      intro v hvmem
      rcases List.mem_append.1 hvmem with hv | hv
      · obtain ⟨m, hm, hid⟩ := h v hv
        rcases mem_updateFirst_of_mem (q := fun mm => mm.id == mid)
          (f := fun mm => { mm with votes := mm.votes + 1 }) hm with h' | h'
        · exact ⟨m, h', hid⟩
        · exact ⟨_, h', hid⟩
      · have hveq : v = newVoteRec uid mid ip now s := by simpa using hv
        subst hveq
        have hm : m0 ∈ s.mem.mascots := List.mem_of_find?_eq_some hfind
        have hid : m0.id = mid := by simpa using List.find?_some hfind
        rcases mem_updateFirst_of_mem (q := fun mm => mm.id == mid)
          (f := fun mm => { mm with votes := mm.votes + 1 }) hm with h' | h'
        · exact ⟨m0, h', by simpa [newVoteRec] using hid⟩
        · exact ⟨_, h', by simpa [newVoteRec] using hid⟩
  | withdrawVote uid mid =>
    show NoOrphanVotes (withdrawVote uid mid s).2.mem
    rcases hr : (withdrawVote uid mid s).1 with e | u
    · rw [withdrawVote_error uid mid s e hr]; exact h
    · cases u
      obtain ⟨-, -, hmem⟩ := withdrawVote_ok uid mid s hr
      rw [hmem]
      intro v hvmem
      obtain ⟨m, hm, hid⟩ := h v (List.mem_of_mem_eraseP hvmem)
      rcases mem_updateFirst_of_mem (q := fun mm => mm.id == mid)
        (f := fun mm => { mm with votes := mm.votes - 1 }) hm with h' | h'
      · exact ⟨m, h', hid⟩
      · exact ⟨_, h', hid⟩
  | deleteAccount uid fe uo =>
    show NoOrphanVotes (deleteAccount uid fe uo s).2.mem
    rcases hr : (deleteAccount uid fe uo s).1 with e | u
    · rw [deleteAccount_error uid fe uo s e hr]; exact h
    · cases u
      rcases deleteAccount_ok uid fe uo s hr with hmem | ⟨um, -, hmem⟩
      · rw [hmem]
        intro v hvmem
        rw [List.mem_filter] at hvmem
        exact h v hvmem.1
      · rw [hmem]
        intro v hvmem
        rw [List.mem_filter] at hvmem
        obtain ⟨hvmem, -⟩ := hvmem
        rw [List.mem_filter] at hvmem
        obtain ⟨hvmem, hvne⟩ := hvmem
        obtain ⟨m, hm, hid⟩ := h v hvmem
        refine ⟨m, mem_eraseP_of_not hm ?_, hid⟩
        have : v.mascotId ≠ um.id := by simpa using hvne
        simp [hid, this]
  | clearMascots => exact absurd rfl hne
  | clearVotes =>
    show NoOrphanVotes (clearVotes s).2.mem
    rw [clearVotes_state]
    intro v hvmem
    cases hvmem
  | clearAll =>
    show NoOrphanVotes (clearAll s).2.mem
    rw [clearAll_state]
    intro v hvmem
    cases hvmem

/-! ## Preservation of `NoSelfVote` (away from the mascots-only clear) -/

theorem noSelf_eq {c c' : Collections} (hv : c'.votes = c.votes)
    (hm : c'.mascots = c.mascots) (h : NoSelfVote c) : NoSelfVote c' := by
  intro v hvmem m hfind
  exact h v (hv ▸ hvmem) m (by rw [← hm]; exact hfind)

theorem step_noSelf (a : Action) (s : Sys) (hne : a ≠ Action.clearMascots)
    (ho : NoOrphanVotes s.mem) (h : NoSelfVote s.mem) : NoSelfVote (step a s).2.mem := by
  cases a with
  | register inp =>
    show NoSelfVote (register inp s).2.mem
    rcases hr : (register inp s).1 with e | u
    · rw [register_error inp s e hr]; exact h
    · cases u
      exact noSelf_eq (by rw [register_ok inp s hr]) (by rw [register_ok inp s hr]) h
  | createMascot inp =>
    show NoSelfVote (createMascot inp s).2.mem
    rcases hr : (createMascot inp s).1 with e | u
    · rw [createMascot_error inp s e hr]; exact h
    · cases u
      rw [(createMascot_ok inp s hr).2]
      intro v hvmem m hfind
      obtain ⟨m1, hm1, hid1⟩ := ho v hvmem
      have hsome : ∃ m0, s.mem.mascots.find? (fun mm => mm.id == v.mascotId) = some m0 := by
        have : (s.mem.mascots.find? (fun mm => mm.id == v.mascotId)).isSome :=
          List.find?_isSome.2 ⟨m1, hm1, by simp [hid1]⟩
        exact Option.isSome_iff_exists.1 this
      obtain ⟨m0, hm0⟩ := hsome
      rw [find?_append_some hm0] at hfind
      injection hfind with hfind
      subst hfind
      exact h v hvmem m0 hm0
  | deleteMascot uid mid fe uo =>
    show NoSelfVote (deleteMascot uid mid fe uo s).2.mem
    rcases hr : (deleteMascot uid mid fe uo s).1 with e | u
    · rw [deleteMascot_error uid mid fe uo s e hr]; exact h
    · cases u
      obtain ⟨m0, -, -, hmem⟩ := deleteMascot_ok uid mid fe uo s hr
      have hm' : (deleteMascot uid mid fe uo s).2.mem.mascots =
          s.mem.mascots.eraseP (fun mm => mm.id == mid) := by rw [hmem]
      have hv' : (deleteMascot uid mid fe uo s).2.mem.votes =
          s.mem.votes.filter (fun v => v.mascotId != mid) := by rw [hmem]
      intro v hvmem m hfind
      rw [hv', List.mem_filter] at hvmem
      rw [hm'] at hfind
      obtain ⟨hvmem, hvne⟩ := hvmem
      have hvne' : v.mascotId ≠ mid := by simpa using hvne
      have himp : ∀ x : Mascot, (x.id == mid) = true → (x.id == v.mascotId) = false := by
        intro x hx
        have hxid : x.id = mid := by simpa using hx
        simp only [hxid, beq_eq_false_iff_ne]
        exact fun hh => hvne' hh.symm
      rw [find?_eraseP_of_imp himp] at hfind
      exact h v hvmem m hfind
  | castVote uid mid ip now =>
    show NoSelfVote (castVote uid mid ip now s).2.mem
    rcases hr : (castVote uid mid ip now s).1 with e | u
    · rw [castVote_error uid mid ip now s e hr]; exact h
    · cases u
      obtain ⟨m0, hfind0, hnotown, -, hmem⟩ := castVote_ok uid mid ip now s hr
      have hm' : (castVote uid mid ip now s).2.mem.mascots =
          updateFirst (fun mm => mm.id == mid) (fun mm => { mm with votes := mm.votes + 1 })
            s.mem.mascots := by rw [hmem]
      have hv' : (castVote uid mid ip now s).2.mem.votes =
          s.mem.votes ++ [newVoteRec uid mid ip now s] := by rw [hmem]
      intro v hvmem m hfind
      rw [hv'] at hvmem
      rw [hm'] at hfind
      rcases List.mem_append.1 hvmem with hv | hv
      · obtain ⟨m1, hm1, hcase⟩ :=
          find?_updateFirst_back (p := fun mm : Mascot => mm.id == v.mascotId)
            (f := fun mm : Mascot => { mm with votes := mm.votes + 1 })
            (fun mm => rfl) hfind
        have huser : m.userId = m1.userId := by
          rcases hcase with rfl | rfl
          · rfl
          · rfl
        rw [huser]
        exact h v hv m1 hm1
      · have hveq : v = newVoteRec uid mid ip now s := by simpa using hv
        subst hveq
        have : (updateFirst (fun mm => mm.id == mid) (fun mm => { mm with votes := mm.votes + 1 })
            s.mem.mascots).find? (fun mm => mm.id == mid) =
            some { m0 with votes := m0.votes + 1 } :=
          find?_updateFirst_self (p := fun mm : Mascot => mm.id == mid)
            (f := fun mm : Mascot => { mm with votes := mm.votes + 1 })
            (fun mm => rfl) hfind0
        have hfind' :
            (updateFirst (fun mm => mm.id == mid) (fun mm => { mm with votes := mm.votes + 1 })
              s.mem.mascots).find? (fun mm => mm.id == (newVoteRec uid mid ip now s).mascotId)
              = some m := hfind
        rw [show (newVoteRec uid mid ip now s).mascotId = mid from rfl, this] at hfind'
        injection hfind' with hfind'
        subst hfind'
        show ({ m0 with votes := m0.votes + 1 } : Mascot).userId ≠
          (newVoteRec uid mid ip now s).userId
        simpa [newVoteRec] using hnotown
  | withdrawVote uid mid =>
    show NoSelfVote (withdrawVote uid mid s).2.mem
    rcases hr : (withdrawVote uid mid s).1 with e | u
    · rw [withdrawVote_error uid mid s e hr]; exact h
    · cases u
      obtain ⟨-, -, hmem⟩ := withdrawVote_ok uid mid s hr
      have hm' : (withdrawVote uid mid s).2.mem.mascots =
          updateFirst (fun mm => mm.id == mid) (fun mm => { mm with votes := mm.votes - 1 })
            s.mem.mascots := by rw [hmem]
      have hv' : (withdrawVote uid mid s).2.mem.votes =
          s.mem.votes.eraseP (fun v => v.userId == uid && v.mascotId == mid) := by rw [hmem]
      intro v hvmem m hfind
      rw [hv'] at hvmem
      rw [hm'] at hfind
      obtain ⟨m1, hm1, hcase⟩ :=
        find?_updateFirst_back (p := fun mm : Mascot => mm.id == v.mascotId)
          (f := fun mm : Mascot => { mm with votes := mm.votes - 1 })
          (fun mm => rfl) hfind
      have huser : m.userId = m1.userId := by
        rcases hcase with rfl | rfl
        · rfl
        · rfl
      rw [huser]
      exact h v (List.mem_of_mem_eraseP hvmem) m1 hm1
  | deleteAccount uid fe uo =>
    show NoSelfVote (deleteAccount uid fe uo s).2.mem
    rcases hr : (deleteAccount uid fe uo s).1 with e | u
    · rw [deleteAccount_error uid fe uo s e hr]; exact h
    · cases u
      rcases deleteAccount_ok uid fe uo s hr with hmem | ⟨um, -, hmem⟩
      · have hm' : (deleteAccount uid fe uo s).2.mem.mascots = s.mem.mascots := by rw [hmem]
        have hv' : (deleteAccount uid fe uo s).2.mem.votes =
            s.mem.votes.filter (fun v => v.userId != uid) := by rw [hmem]
        intro v hvmem m hfind
        rw [hv', List.mem_filter] at hvmem
        rw [hm'] at hfind
        exact h v hvmem.1 m hfind
      · have hm' : (deleteAccount uid fe uo s).2.mem.mascots =
            s.mem.mascots.eraseP (fun m => m.id == um.id) := by rw [hmem]
        have hv' : (deleteAccount uid fe uo s).2.mem.votes =
            (s.mem.votes.filter (fun v => v.mascotId != um.id)).filter
              (fun v => v.userId != uid) := by rw [hmem]
        intro v hvmem m hfind
        rw [hv', List.mem_filter] at hvmem
        rw [hm'] at hfind
        obtain ⟨hvmem, -⟩ := hvmem
        rw [List.mem_filter] at hvmem
        obtain ⟨hvmem, hvne⟩ := hvmem
        have hvne' : v.mascotId ≠ um.id := by simpa using hvne
        have himp : ∀ x : Mascot, (x.id == um.id) = true → (x.id == v.mascotId) = false := by
          intro x hx
          have hxid : x.id = um.id := by simpa using hx
          simp only [hxid, beq_eq_false_iff_ne]
          exact fun hh => hvne' hh.symm
        rw [find?_eraseP_of_imp himp] at hfind
        exact h v hvmem m hfind
  | clearMascots => exact absurd rfl hne
  | clearVotes =>
    show NoSelfVote (clearVotes s).2.mem
    rw [clearVotes_state]
    intro v hvmem
    cases hvmem
  | clearAll =>
    show NoSelfVote (clearAll s).2.mem
    rw [clearAll_state]
    intro v hvmem
    cases hvmem

/-! ## Preservation of `UserRefOK` -/

theorem userRef_eq {c c' : Collections} (hv : c'.votes = c.votes)
    (hu : c'.users = c.users) (h : UserRefOK c) : UserRefOK c' := by
  intro v hvmem
  rw [hu]
  exact h v (hv ▸ hvmem)

theorem step_userRef (a : Action) (s : Sys) (hok : actionOk s a = true)
    (h : UserRefOK s.mem) : UserRefOK (step a s).2.mem := by
  cases a with
  | register inp =>
    show UserRefOK (register inp s).2.mem
    rcases hr : (register inp s).1 with e | u
    · rw [register_error inp s e hr]; exact h
    · cases u
      have hu' : (register inp s).2.mem.users = s.mem.users ++ [regUser inp s] := by
        rw [register_ok inp s hr]
      have hv' : (register inp s).2.mem.votes = s.mem.votes := by
        rw [register_ok inp s hr]
      intro v hvmem
      rw [hv'] at hvmem
      rw [hu']
      obtain ⟨u, hu, hid⟩ := h v hvmem
      exact ⟨u, List.mem_append_left _ hu, hid⟩
  | createMascot inp =>
    show UserRefOK (createMascot inp s).2.mem
    rcases hr : (createMascot inp s).1 with e | u
    · rw [createMascot_error inp s e hr]; exact h
    · cases u
      exact userRef_eq (by rw [(createMascot_ok inp s hr).2])
        (by rw [(createMascot_ok inp s hr).2]) h
  | deleteMascot uid mid fe uo =>
    show UserRefOK (deleteMascot uid mid fe uo s).2.mem
    rcases hr : (deleteMascot uid mid fe uo s).1 with e | u
    · rw [deleteMascot_error uid mid fe uo s e hr]; exact h
    · cases u
      obtain ⟨m0, -, -, hmem⟩ := deleteMascot_ok uid mid fe uo s hr
      have hu' : (deleteMascot uid mid fe uo s).2.mem.users = s.mem.users := by rw [hmem]
      have hv' : (deleteMascot uid mid fe uo s).2.mem.votes =
          s.mem.votes.filter (fun v => v.mascotId != mid) := by rw [hmem]
      intro v hvmem
      rw [hv', List.mem_filter] at hvmem
      rw [hu']
      exact h v hvmem.1
  | castVote uid mid ip now =>
    show UserRefOK (castVote uid mid ip now s).2.mem
    rcases hr : (castVote uid mid ip now s).1 with e | u
    · rw [castVote_error uid mid ip now s e hr]; exact h
    · cases u
      obtain ⟨m0, -, -, -, hmem⟩ := castVote_ok uid mid ip now s hr
      have hu' : (castVote uid mid ip now s).2.mem.users = s.mem.users := by rw [hmem]
      have hv' : (castVote uid mid ip now s).2.mem.votes =
          s.mem.votes ++ [newVoteRec uid mid ip now s] := by rw [hmem]
      intro v hvmem
      rw [hv'] at hvmem
      rw [hu']
      rcases List.mem_append.1 hvmem with hv | hv
      · exact h v hv
      · have hveq : v = newVoteRec uid mid ip now s := by simpa using hv
        subst hveq
        rw [actionOk, List.any_eq_true] at hok
        obtain ⟨u, hu, hid⟩ := hok
        exact ⟨u, hu, by simpa [newVoteRec] using hid⟩
  | withdrawVote uid mid =>
    show UserRefOK (withdrawVote uid mid s).2.mem
    rcases hr : (withdrawVote uid mid s).1 with e | u
    · rw [withdrawVote_error uid mid s e hr]; exact h
    · cases u
      obtain ⟨-, -, hmem⟩ := withdrawVote_ok uid mid s hr
      have hu' : (withdrawVote uid mid s).2.mem.users = s.mem.users := by rw [hmem]
      have hv' : (withdrawVote uid mid s).2.mem.votes =
          s.mem.votes.eraseP (fun v => v.userId == uid && v.mascotId == mid) := by rw [hmem]
      intro v hvmem
      rw [hv'] at hvmem
      rw [hu']
      exact h v (List.mem_of_mem_eraseP hvmem)
  | deleteAccount uid fe uo =>
    show UserRefOK (deleteAccount uid fe uo s).2.mem
    rcases hr : (deleteAccount uid fe uo s).1 with e | u
    · rw [deleteAccount_error uid fe uo s e hr]; exact h
    · cases u
      rcases deleteAccount_ok uid fe uo s hr with hmem | ⟨um, -, hmem⟩
      · have hu' : (deleteAccount uid fe uo s).2.mem.users =
            s.mem.users.eraseP (fun u => u.id == uid) := by rw [hmem]
        have hv' : (deleteAccount uid fe uo s).2.mem.votes =
            s.mem.votes.filter (fun v => v.userId != uid) := by rw [hmem]
        intro v hvmem
        rw [hv', List.mem_filter] at hvmem
        rw [hu']
        obtain ⟨hvmem, hvne⟩ := hvmem
        obtain ⟨u, hu, hid⟩ := h v hvmem
        have hvne' : v.userId ≠ uid := by simpa using hvne
        refine ⟨u, mem_eraseP_of_not hu ?_, hid⟩
        simp only [beq_eq_false_iff_ne, hid]
        exact hvne'
      · have hu' : (deleteAccount uid fe uo s).2.mem.users =
            s.mem.users.eraseP (fun u => u.id == uid) := by rw [hmem]
        have hv' : (deleteAccount uid fe uo s).2.mem.votes =
            (s.mem.votes.filter (fun v => v.mascotId != um.id)).filter
              (fun v => v.userId != uid) := by rw [hmem]
        intro v hvmem
        rw [hv', List.mem_filter] at hvmem
        rw [hu']
        obtain ⟨hvmem, hvne⟩ := hvmem
        rw [List.mem_filter] at hvmem
        obtain ⟨u, hu, hid⟩ := h v hvmem.1
        have hvne' : v.userId ≠ uid := by simpa using hvne
        refine ⟨u, mem_eraseP_of_not hu ?_, hid⟩
        simp only [beq_eq_false_iff_ne, hid]
        exact hvne'
  | clearMascots => simp [actionOk] at hok
  | clearVotes =>
    show UserRefOK (clearVotes s).2.mem
    rw [clearVotes_state]
    intro v hvmem
    cases hvmem
  | clearAll =>
    show UserRefOK (clearAll s).2.mem
    rw [clearAll_state]
    intro v hvmem
    cases hvmem

/-! ## Reachability -/

theorem run_preserve (P : Sys → Prop) (hstep : ∀ a s, P s → P (step a s).2) :
    ∀ as s, P s → P (run as s)
  | [], _, h => h
  | a :: as, s, h => run_preserve P hstep as (step a s).2 (hstep a s h)

theorem run_preserve_noClear (P : Sys → Prop)
    (hstep : ∀ a s, a ≠ Action.clearMascots → P s → P (step a s).2) :
    ∀ as s, Action.clearMascots ∉ as → P s → P (run as s)
  | [], _, _, h => h
  | a :: as, s, hnc, h =>
    run_preserve_noClear P hstep as (step a s).2
      (fun hmem => hnc (List.mem_cons_of_mem a hmem))
      (hstep a s (fun he => hnc (he ▸ List.mem_cons_self a as)) h)

theorem run_preserve_good (P : Sys → Prop)
    (hstep : ∀ a s, actionOk s a = true → P s → P (step a s).2) :
    ∀ as s, goodRun as s = true → P s → P (run as s)
  | [], _, _, h => h
  | a :: as, s, hg, h => by
    rw [goodRun, Bool.and_eq_true] at hg
    exact run_preserve_good P hstep as (step a s).2 hg.2 (hstep a s hg.1 h)

theorem initState_invariants :
    PairUnique initState.mem ∧ OneMascotPerUser initState.mem ∧
    NoOrphanVotes initState.mem ∧ NoSelfVote initState.mem ∧ UserRefOK initState.mem := by
  refine ⟨fun uid mid => ?_, fun uid => ?_, fun v hv => absurd hv ?_, fun v hv => absurd hv ?_,
    fun v hv => absurd hv ?_⟩ <;> simp [initState, PairUnique, OneMascotPerUser]

/-! ## Rejection lemmas for the vote / entry handlers -/

theorem castVote_duplicate_rejected (uid mid : Nat) (ip now : String) (s : Sys)
    (hdup : (s.mem.votes.find? (fun v => v.userId == uid && v.mascotId == mid)).isSome = true)
    (hmas : (s.mem.mascots.find? (fun m => m.id == mid)).isSome = true) :
    ∃ e : ApiError, castVote uid mid ip now s = (.error e, s) ∧
      e.toClass = ErrClass.conflictError := by
  obtain ⟨m, hm⟩ := Option.isSome_iff_exists.1 hmas
  unfold castVote
  rw [hm]
  by_cases hown : m.userId = uid
  · refine ⟨.selfVote, ?_, rfl⟩
    simp [hown]
  · refine ⟨.alreadyVoted, ?_, rfl⟩
    simp [hown, hdup]

theorem castVote_self_rejected (uid mid : Nat) (ip now : String) (s : Sys) (m : Mascot)
    (hm : s.mem.mascots.find? (fun mm => mm.id == mid) = some m) (hown : m.userId = uid) :
    castVote uid mid ip now s = (.error .selfVote, s) := by
  unfold castVote
  rw [hm]
  simp [hown]

theorem createMascot_existing_rejected (inp : CreateMascotInput) (s : Sys)
    (hex : (s.mem.mascots.find? (fun m => m.userId == inp.userId)).isSome = true) :
    ∃ e : ApiError, createMascot inp s = (.error e, s) := by
  unfold createMascot
  by_cases hval : ¬ (1 ≤ inp.name.length ∧ 1 ≤ inp.description.length)
  · rw [if_pos hval]
    exact ⟨.validationFailed, rfl⟩
  · rw [if_neg hval, if_pos hex]
    exact ⟨.oneMascotPerUser, rfl⟩

/-! ## Claim theorems -/

/-- **C1**: in every state reachable from startup, at most one live vote
exists per (voter user id, entry id) pair; and casting a vote when a
vote with the same pair already exists (against an existing entry) is
rejected with an error of the spec's ConflictError class while the whole
state — in particular the votes collection and the entry's denormalized
counter — is left unchanged. -/
theorem vote_pair_unique_and_duplicate_conflict (as : List Action) :
    PairUnique (run as initState).mem ∧
    ∀ uid mid : Nat, ∀ ip now : String,
      (((run as initState).mem.votes.find?
        (fun v => v.userId == uid && v.mascotId == mid)).isSome = true) →
      (((run as initState).mem.mascots.find? (fun m => m.id == mid)).isSome = true) →
      ∃ e : ApiError, castVote uid mid ip now (run as initState) =
        (.error e, run as initState) ∧ e.toClass = ErrClass.conflictError := by
  constructor
  · exact run_preserve (fun s => PairUnique s.mem) step_pairUnique as initState
      initState_invariants.1
  · intro uid mid ip now hdup hmas
    exact castVote_duplicate_rejected uid mid ip now _ hdup hmas

/-- Witness for **C1** at the state after `baseTrace` (bob already voted
for mascot 1): a second cast by bob is rejected with a ConflictError and
the state is unchanged. -/
theorem vote_pair_unique_and_duplicate_conflict_witness :
    PairUnique (run baseTrace initState).mem ∧
    (∃ e : ApiError, castVote 3 1 "ip2" "t2" (run baseTrace initState) =
      (.error e, run baseTrace initState) ∧ e.toClass = ErrClass.conflictError) :=
  ⟨(vote_pair_unique_and_duplicate_conflict baseTrace).1,
   (vote_pair_unique_and_duplicate_conflict baseTrace).2 3 1 "ip2" "t2" (by rfl) (by rfl)⟩

/-- **C2, counterexample**: after `baseTrace`, the mascots-only admin
clear and a mascot re-creation by bob (which re-uses entry id 1), bob's
surviving vote on entry id 1 targets bob's own new entry — the
no-self-vote invariant is violated in a reachable state. -/
theorem no_self_vote_counterexample : ¬ NoSelfVote c2State.mem := by
  intro h
  exact h { id := 1, userId := 3, mascotId := 1, voteIP := "ip", createdAt := "t" }
    (by decide)
    { id := 1, name := "Wolf", description := "a wolf", imageUrl := none, votes := 0,
      userId := 3 }
    (by decide) rfl

/-- **C2, amended**: in every state reachable without the mascots-only
admin clear, no vote's voter id equals the owning user id of the entry
it targets (the first entry whose id matches, as `Array.find` resolves
it); and casting a vote on one's own entry is rejected (400, state
unchanged). -/
theorem no_self_vote_amended (as : List Action) (hnc : Action.clearMascots ∉ as) :
    NoSelfVote (run as initState).mem ∧
    ∀ uid mid : Nat, ∀ ip now : String, ∀ m : Mascot,
      (run as initState).mem.mascots.find? (fun mm => mm.id == mid) = some m →
      m.userId = uid →
      castVote uid mid ip now (run as initState) = (.error .selfVote, run as initState) := by
  constructor
  · exact (run_preserve_noClear (fun s => NoOrphanVotes s.mem ∧ NoSelfVote s.mem)
      (fun a s hne hp => ⟨step_noOrphan a s hne hp.1, step_noSelf a s hne hp.1 hp.2⟩)
      as initState hnc ⟨initState_invariants.2.2.1, initState_invariants.2.2.2.1⟩).2
  · intro uid mid ip now m hm hown
    exact castVote_self_rejected uid mid ip now _ m hm hown

/-- Witness for **C2 (amended)**: with alice owning mascot 1, alice's
own vote attempt on it is rejected as a self-vote. -/
theorem no_self_vote_amended_witness :
    NoSelfVote (run [aliceReg, aliceCreate] initState).mem ∧
    castVote 2 1 "ip" "t" (run [aliceReg, aliceCreate] initState) =
      (.error .selfVote, run [aliceReg, aliceCreate] initState) :=
  ⟨(no_self_vote_amended [aliceReg, aliceCreate] (by decide)).1,
   (no_self_vote_amended [aliceReg, aliceCreate] (by decide)).2 2 1 "ip" "t"
     { id := 1, name := "Fox", description := "a fox", imageUrl := none, votes := 0,
       userId := 2 } (by rfl) rfl⟩

/-- **C3**: in every reachable state, at most one live entry is owned by
any user id; and an entry-creation request by a user who already owns an
entry is rejected with the whole state (in particular the entries
collection) unchanged. -/
theorem one_entry_per_user (as : List Action) :
    OneMascotPerUser (run as initState).mem ∧
    ∀ inp : CreateMascotInput,
      (((run as initState).mem.mascots.find?
        (fun m => m.userId == inp.userId)).isSome = true) →
      ∃ e : ApiError, createMascot inp (run as initState) = (.error e, run as initState) := by
  constructor
  · exact run_preserve (fun s => OneMascotPerUser s.mem) step_oneMascot as initState
      initState_invariants.2.1
  · intro inp hex
    exact createMascot_existing_rejected inp _ hex

/-- Witness for **C3**: alice already owns mascot 1; her second
submission is rejected and the state unchanged. -/
theorem one_entry_per_user_witness :
    OneMascotPerUser (run [aliceReg, aliceCreate] initState).mem ∧
    (∃ e : ApiError, createMascot
      { userId := 2, name := "Wolf", description := "a wolf", file := none }
      (run [aliceReg, aliceCreate] initState) =
      (.error e, run [aliceReg, aliceCreate] initState)) :=
  ⟨(one_entry_per_user [aliceReg, aliceCreate]).1,
   (one_entry_per_user [aliceReg, aliceCreate]).2
     { userId := 2, name := "Wolf", description := "a wolf", file := none } (by rfl)⟩

/-- **C4, counterexample**: after the mascots-only admin clear, bob's
vote still references entry id 1 although the entries collection is
empty — referential integrity does not hold after every mutation. -/
theorem referential_integrity_counterexample : ¬ NoOrphanVotes c4State.mem := by
  intro h
  obtain ⟨m, hm, -⟩ := h
    { id := 1, userId := 3, mascotId := 1, voteIP := "ip", createdAt := "t" } (by decide)
  have hnil : c4State.mem.mascots = ([] : List Mascot) := by rfl
  rw [hnil] at hm
  cases hm

/-- **C4, amended**: after every sequence of mutations that avoids the
mascots-only admin clear and in which every vote is cast under the id of
a still-existing user (no stale token), referential integrity holds: no
vote references a user id absent from the users collection or an entry
id absent from the entries collection. -/
theorem referential_integrity_amended (as : List Action)
    (hg : goodRun as initState = true) :
    UserRefOK (run as initState).mem ∧ NoOrphanVotes (run as initState).mem :=
  run_preserve_good (fun s => UserRefOK s.mem ∧ NoOrphanVotes s.mem)
    (fun a s hok hp =>
      ⟨step_userRef a s hok hp.1,
       step_noOrphan a s (fun he => by subst he; simp [actionOk] at hok) hp.2⟩)
    as initState hg ⟨initState_invariants.2.2.2.2, initState_invariants.2.2.1⟩

/-- Witness for **C4 (amended)** at the state after `baseTrace`. -/
theorem referential_integrity_amended_witness :
    UserRefOK (run baseTrace initState).mem ∧ NoOrphanVotes (run baseTrace initState).mem :=
  referential_integrity_amended baseTrace (by rfl)

/-- **C5**: after any successful owner-requested deletion of the entry
with id `mid`, no vote referencing that id remains
(`countVotes(entryId) == 0`). -/
theorem delete_entry_removes_votes (uid mid : Nat) (fe uo : Bool) (s : Sys)
    (h : (deleteMascot uid mid fe uo s).1 = .ok ()) :
    ((deleteMascot uid mid fe uo s).2.mem.votes.countP (fun v => v.mascotId == mid)) = 0 := by
  obtain ⟨m, -, -, hmem⟩ := deleteMascot_ok uid mid fe uo s h
  have hv' : (deleteMascot uid mid fe uo s).2.mem.votes =
      s.mem.votes.filter (fun v => v.mascotId != mid) := by rw [hmem]
  rw [hv', List.countP_eq_zero]
  intro v hv
  rw [List.mem_filter] at hv
  simpa using hv.2

/-- Witness for **C5**: alice deletes her voted-for mascot 1; the vote
count for entry 1 afterwards is 0. -/
theorem delete_entry_removes_votes_witness :
    (deleteMascot 2 1 false false (run baseTrace initState)).1 = .ok () ∧
    ((deleteMascot 2 1 false false (run baseTrace initState)).2.mem.votes.countP
      (fun v => v.mascotId == 1)) = 0 :=
  ⟨by rfl, delete_entry_removes_votes 2 1 false false (run baseTrace initState) (by rfl)⟩

theorem withdrawVote_succeeds (uid mid : Nat) (s : Sys) (m : Mascot)
    (hm : s.mem.mascots.find? (fun mm => mm.id == mid) = some m)
    (hv : (s.mem.votes.find? (fun v => v.userId == uid && v.mascotId == mid)).isSome = true) :
    (withdrawVote uid mid s).1 = .ok () := by
  obtain ⟨v0, hv0⟩ := Option.isSome_iff_exists.1 hv
  unfold withdrawVote
  rw [hm]
  simp [hv0]

/-- **C6**: with a unique (voter, entry) vote in place and the entry
present, withdrawing succeeds, removes exactly that one vote record
(the list shrinks by one, every other vote survives, and no vote with
the pair remains), sets the entry's denormalized counter to
`max(old - 1, 0)` (stated over `Int` to mirror `Math.max(0, n-1)`), and
a second withdrawal of the same vote is rejected with the 404
`voteNotFound` rejection (the spec's NotFoundError) leaving the state
unchanged. -/
theorem withdraw_vote_exact (uid mid : Nat) (s : Sys) (m : Mascot)
    (hpu : PairUnique s.mem)
    (hm : s.mem.mascots.find? (fun mm => mm.id == mid) = some m)
    (hv : (s.mem.votes.find? (fun v => v.userId == uid && v.mascotId == mid)).isSome = true) :
    (withdrawVote uid mid s).1 = .ok () ∧
    (withdrawVote uid mid s).2.mem.votes.length + 1 = s.mem.votes.length ∧
    (∀ v ∈ s.mem.votes,
      v ∈ (withdrawVote uid mid s).2.mem.votes ∨ (v.userId = uid ∧ v.mascotId = mid)) ∧
    ((withdrawVote uid mid s).2.mem.votes.countP
      (fun v => v.userId == uid && v.mascotId == mid)) = 0 ∧
    (withdrawVote uid mid s).2.mem.mascots.find? (fun mm => mm.id == mid) =
      some { m with votes := m.votes - 1 } ∧
    ((m.votes - 1 : Nat) : Int) = max ((m.votes : Int) - 1) 0 ∧
    withdrawVote uid mid (withdrawVote uid mid s).2 =
      (.error .voteNotFound, (withdrawVote uid mid s).2) := by
  have hok : (withdrawVote uid mid s).1 = .ok () := withdrawVote_succeeds uid mid s m hm hv
  obtain ⟨-, -, hmem⟩ := withdrawVote_ok uid mid s hok
  have hv' : (withdrawVote uid mid s).2.mem.votes =
      s.mem.votes.eraseP (fun v => v.userId == uid && v.mascotId == mid) := by rw [hmem]
  have hm' : (withdrawVote uid mid s).2.mem.mascots =
      updateFirst (fun mm => mm.id == mid) (fun mm => { mm with votes := mm.votes - 1 })
        s.mem.mascots := by rw [hmem]
  obtain ⟨v0, hv0⟩ := Option.isSome_iff_exists.1 hv
  have hv0mem : v0 ∈ s.mem.votes := List.mem_of_find?_eq_some hv0
  have hv0p : (v0.userId == uid && v0.mascotId == mid) = true := by
    have := List.find?_some hv0
    simpa using this
  have hfind2 : (withdrawVote uid mid s).2.mem.mascots.find? (fun mm => mm.id == mid) =
      some { m with votes := m.votes - 1 } := by
    rw [hm']
    exact find?_updateFirst_self (p := fun mm : Mascot => mm.id == mid)
      (f := fun mm : Mascot => { mm with votes := mm.votes - 1 }) (fun mm => rfl) hm
  have hcount0 : ((withdrawVote uid mid s).2.mem.votes.countP
      (fun v => v.userId == uid && v.mascotId == mid)) = 0 := by
    rw [hv']
    exact eraseP_countP_zero (hpu uid mid)
  refine ⟨hok, ?_, ?_, hcount0, hfind2, by omega, ?_⟩
  · rw [hv', List.length_eraseP_of_mem hv0mem hv0p]
    have hpos : 0 < s.mem.votes.length := List.length_pos_of_mem hv0mem
    omega
  · intro v hvm
    by_cases hp : (v.userId == uid && v.mascotId == mid) = true
    · exact Or.inr ⟨by simpa using Bool.and_elim_left hp,
        by simpa using Bool.and_elim_right hp⟩
    · refine Or.inl ?_
      rw [hv']
      exact mem_eraseP_of_not hvm (by simpa using hp)
  · have hnone : (withdrawVote uid mid s).2.mem.votes.find?
        (fun v => v.userId == uid && v.mascotId == mid) = none := by
      rw [List.find?_eq_none]
      intro x hx
      exact List.countP_eq_zero.1 hcount0 x hx
    have hgen : ∀ t : Sys,
        t.mem.mascots.find? (fun mm => mm.id == mid) = some { m with votes := m.votes - 1 } →
        t.mem.votes.find? (fun v => v.userId == uid && v.mascotId == mid) = none →
        withdrawVote uid mid t = (.error .voteNotFound, t) := by
      intro t hf hn
      unfold withdrawVote
      rw [hf]
      simp [hn]
    exact hgen _ hfind2 hnone

/-- Witness for **C6** at the state after `baseTrace`: bob's withdrawal
of his vote on mascot 1 succeeds, and a second withdrawal is rejected
with `voteNotFound`, leaving the state unchanged. -/
theorem withdraw_vote_exact_witness :
    (withdrawVote 3 1 (run baseTrace initState)).1 = .ok () ∧
    withdrawVote 3 1 (withdrawVote 3 1 (run baseTrace initState)).2 =
      (.error .voteNotFound, (withdrawVote 3 1 (run baseTrace initState)).2) :=
  ⟨(withdraw_vote_exact 3 1 (run baseTrace initState)
      { id := 1, name := "Fox", description := "a fox", imageUrl := none, votes := 1,
        userId := 2 }
      (fun uid mid => le_trans (List.countP_le_length _) (by decide))
      (by rfl) (by rfl)).1,
   (withdraw_vote_exact 3 1 (run baseTrace initState)
      { id := 1, name := "Fox", description := "a fox", imageUrl := none, votes := 1,
        userId := 2 }
      (fun uid mid => le_trans (List.countP_le_length _) (by decide))
      (by rfl) (by rfl)).2.2.2.2.2.2⟩

/-- **C7, counterexample**: alice's mascot 1 has an image; with the
image file present but `unlinkSync` throwing, the deletion handler
returns the 500 `deleteFailed` rejection and deletes nothing — the
entry (and any votes) remain, contradicting the claim that the logical
deletion still completes. -/
theorem media_failure_counterexample :
    (deleteMascot 2 1 true false c7State).1 = Except.error ApiError.deleteFailed ∧
    (deleteMascot 2 1 true false c7State).2 = c7State ∧
    c7State.mem.mascots.length = 1 :=
  ⟨by rfl, by rfl, by rfl⟩

/-- **C7, amended**: when the entry's media file exists but deleting it
throws, the whole deletion aborts with the 500 `deleteFailed` rejection
and the state — entry record and votes included — is unchanged; only
when the media file is absent does the logical deletion proceed without
it. -/
theorem media_failure_aborts_deletion (uid mid : Nat) (uo : Bool) (s : Sys) (m : Mascot)
    (hm : s.mem.mascots.find? (fun mm => mm.id == mid) = some m)
    (hown : m.userId = uid) (himg : m.imageUrl.isSome = true) :
    deleteMascot uid mid true false s = (.error .deleteFailed, s) ∧
    (deleteMascot uid mid false uo s).1 = .ok () := by
  constructor
  · unfold deleteMascot
    rw [hm]
    simp [hown, himg]
  · unfold deleteMascot
    rw [hm]
    simp [hown]
    split <;> rfl

/-- Witness for **C7 (amended)** at `c7State`. -/
theorem media_failure_aborts_deletion_witness :
    deleteMascot 2 1 true false c7State = (.error .deleteFailed, c7State) ∧
    (deleteMascot 2 1 false false c7State).1 = .ok () :=
  media_failure_aborts_deletion 2 1 false c7State
    { id := 1, name := "Fox", description := "a fox",
      imageUrl := some "/uploads/image-1.png", votes := 0, userId := 2 }
    (by rfl) rfl rfl

/-- **C8** (code bug, evaluated at the failing input): alice — who cast
no votes but whose entry 1 was voted for by bob — deletes her account
successfully; in memory the vote is gone, but `saveData('votes')` was
skipped (the removed-count baseline was taken after the entry's votes
were already filtered), so the on-disk votes file still holds bob's
vote referencing the deleted entry id 1, while the on-disk mascots and
users files were updated. -/
theorem account_deletion_votes_not_persisted :
    (deleteAccount 2 false false (run baseTrace initState)).1 = .ok () ∧
    c8State.mem.votes = [] ∧
    c8State.disk.votes.map Vote.mascotId = [1] ∧
    c8State.disk.mascots = [] ∧
    c8State.disk.users.map User.id = [1, 3] :=
  ⟨by rfl, by rfl, by rfl, by rfl, by rfl⟩

/-- **C9, counterexample**: with users `[alice (id 2)]` (after the demo
user deleted their account), a new registration succeeds and assigns
id `users.length + 1 = 2` — colliding with alice's id, and different
from `max(existing ids) + 1 = 3`. -/
theorem register_id_collision :
    c9State.mem.users.map User.id = [2] ∧
    (register carolInp c9State).1 = .ok () ∧
    (register carolInp c9State).2.mem.users.map User.id = [2, 2] :=
  ⟨by rfl, by rfl, by rfl⟩

/-- **C9, amended**: a successful registration appends a user whose
assigned id is `users.length + 1` (the current number of users plus
one); after deletions this id can coincide with an existing user's id. -/
theorem register_assigns_length_plus_one (inp : RegisterInput) (s : Sys)
    (h : (register inp s).1 = .ok ()) :
    ∃ u : User, (register inp s).2.mem.users = s.mem.users ++ [u] ∧
      u.id = s.mem.users.length + 1 :=
  ⟨regUser inp s, by rw [register_ok inp s h], rfl⟩

/-- Witness for **C9 (amended)**: carol registers against the seeded
initial state and is appended with id 2. -/
theorem register_assigns_length_plus_one_witness :
    (register carolInp initState).1 = .ok () ∧
    (∃ u : User, (register carolInp initState).2.mem.users = initState.mem.users ++ [u] ∧
      u.id = initState.mem.users.length + 1) :=
  ⟨by rfl, register_assigns_length_plus_one carolInp initState (by rfl)⟩

/-- **C10**: every rejection of register, create entry, cast vote and
withdraw vote is atomic — the whole state (all three in-memory
collections, every vote counter, and the backing files) is exactly as
before the request. -/
theorem rejections_atomic (s : Sys) :
    (∀ inp : RegisterInput, ∀ e : ApiError,
      (register inp s).1 = .error e → (register inp s).2 = s) ∧
    (∀ inp : CreateMascotInput, ∀ e : ApiError,
      (createMascot inp s).1 = .error e → (createMascot inp s).2 = s) ∧
    (∀ uid mid : Nat, ∀ ip now : String, ∀ e : ApiError,
      (castVote uid mid ip now s).1 = .error e → (castVote uid mid ip now s).2 = s) ∧
    (∀ uid mid : Nat, ∀ e : ApiError,
      (withdrawVote uid mid s).1 = .error e → (withdrawVote uid mid s).2 = s) :=
  ⟨fun inp e => register_error inp s e,
   fun inp e => createMascot_error inp s e,
   fun uid mid ip now e => castVote_error uid mid ip now s e,
   fun uid mid e => withdrawVote_error uid mid s e⟩

/-- Witness for **C10**: a vote cast on a missing mascot in the initial
state is rejected and the state is exactly unchanged. -/
theorem rejections_atomic_witness :
    (castVote 2 1 "ip" "t" initState).1 = Except.error ApiError.mascotNotFound ∧
    (castVote 2 1 "ip" "t" initState).2 = initState :=
  ⟨by rfl,
   (rejections_atomic initState).2.2.1 2 1 "ip" "t" ApiError.mascotNotFound (by rfl)⟩

end MascotContest
